import Mathlib

/-!
Verification development for the bulk WHOIS/RDAP lookup service
(`backend/whois_rdap_service.py`).  The Python source is shallowly embedded:
JSON values become the inductive type `J`, Python dicts over string keys
become `PyDict` (an ordered association list with replace-on-set semantics),
network effects become explicit oracle functions passed as parameters, and
raised exceptions become `Except String` values carrying the exception
message (the source dispatches on exception messages with substring tests,
so the message string is the faithful carrier of the error).
-/

/-- Model of a parsed JSON value (the payloads the Python code manipulates). -/
inductive J where
  | str : String → J
  | num : Int → J
  | bool : Bool → J
  | null : J
  | arr : List J → J
  | obj : List (String × J) → J
deriving Repr

mutual

/-- Python `repr` of a JSON value, simplified: strings are wrapped in single
quotes without escaping.  Only used to model `str(...)` on non-string values;
no claim depends on the exact rendering of nested containers. -/
def J.reprStr : J → String
  | .str s => "\x27" ++ s ++ "\x27"
  | .num n => toString n
  | .bool b => if b then "True" else "False"
  | .null => "None"
  | .arr l => "[" ++ String.intercalate ", " (J.reprStrList l) ++ "]"
  | .obj l => "\x7b" ++ String.intercalate ", " (J.reprStrObj l) ++ "\x7d"

/-- `repr` of the elements of a JSON array. -/
def J.reprStrList : List J → List String
  | [] => []
  | x :: xs => J.reprStr x :: J.reprStrList xs

/-- `repr` of the members of a JSON object. -/
def J.reprStrObj : List (String × J) → List String
  | [] => []
  | (k, v) :: xs => ("\x27" ++ k ++ "\x27: " ++ J.reprStr v) :: J.reprStrObj xs

end

/-- Python `str(...)` of a JSON value: a string renders as itself, anything
else as its `repr`. -/
def J.toStr : J → String
  | .str s => s
  | v => J.reprStr v

mutual

/-- Python `==` on JSON values (structural equality). -/
def J.beq : J → J → Bool
  | .str a, .str b => a == b
  | .num a, .num b => a == b
  | .bool a, .bool b => a == b
  | .null, .null => true
  | .arr a, .arr b => J.beqList a b
  | .obj a, .obj b => J.beqObj a b
  | _, _ => false

/-- `==` on JSON arrays. -/
def J.beqList : List J → List J → Bool
  | [], [] => true
  | a :: as, b :: bs => J.beq a b && J.beqList as bs
  | _, _ => false

/-- `==` on JSON objects. -/
def J.beqObj : List (String × J) → List (String × J) → Bool
  | [], [] => true
  | (k1, v1) :: as, (k2, v2) :: bs => k1 == k2 && J.beq v1 v2 && J.beqObj as bs
  | _, _ => false

end

/-- Python truthiness of a JSON value. -/
def J.truthy : J → Bool
  | .str s => s != ""
  | .num n => n != 0
  | .bool b => b
  | .null => false
  | .arr l => !l.isEmpty
  | .obj l => !l.isEmpty

/-- `dict.get` on a JSON object literal (first binding wins, matching a
parsed-JSON dict where keys are unique). -/
def jGet (data : List (String × J)) (k : String) : Option J :=
  (data.find? (fun p => p.1 == k)).map (fun p => p.2)

/-- `dict.get(k, dflt)`. -/
def jGetD (data : List (String × J)) (k : String) (dflt : J) : J :=
  (jGet data k).getD dflt

/-- `value.get(k)` where `value` is expected to be a dict.  On a non-dict the
source would raise `AttributeError` (aborting the lookup); such accesses are
modelled as absent keys, which only enlarges the set of runs the theorems
cover. -/
def J.oget : J → String → Option J
  | .obj l, k => jGet l k
  | _, _ => none

/-- View a JSON value as an array; iteration over a non-list raises in the
source, modelled as the empty iteration. -/
def J.asArr : J → List J
  | .arr l => l
  | _ => []

/-- A Python dict with string keys, as the ordered association list of its
items: assignment replaces in place or appends at the end, exactly dict
insertion-order semantics. -/
structure PyDict where
  entries : List (String × J)
deriving Repr

/-- Dict lookup on the item list. -/
def dictGet (k : String) : List (String × J) → Option J
  | [] => none
  | (k0, v0) :: rest => if k0 = k then some v0 else dictGet k rest

/-- Dict assignment on the item list: replace in place or append. -/
def dictSet (k : String) (v : J) : List (String × J) → List (String × J)
  | [] => [(k, v)]
  | (k0, v0) :: rest => if k0 = k then (k0, v) :: rest else (k0, v0) :: dictSet k v rest

/-- Dict lookup. -/
def PyDict.get (r : PyDict) (k : String) : Option J :=
  dictGet k r.entries

/-- Dict assignment `d[k] = v`. -/
def PyDict.set (r : PyDict) (k : String) (v : J) : PyDict :=
  ⟨dictSet k v r.entries⟩

/-! ## Python string primitives -/

/-- Python `str.strip()` (ASCII whitespace suffices for every string the
service manipulates). -/
def pyStrip (s : String) : String :=
  ⟨((s.data.dropWhile Char.isWhitespace).reverse.dropWhile Char.isWhitespace).reverse⟩

/-- Python `str.lower()` (character-wise, as for the ASCII data involved). -/
def lowerStr (s : String) : String :=
  ⟨s.data.map Char.toLower⟩

/-- Python `str.upper()`. -/
def upperStr (s : String) : String :=
  ⟨s.data.map Char.toUpper⟩

/-- Occurrence test for `needle in hay` on char lists. -/
def listContains (needle : List Char) : List Char → Bool
  | [] => needle.isEmpty
  | c :: rest => needle.isPrefixOf (c :: rest) || listContains needle rest

/-- Python `needle in hay` on strings. -/
def strContains (needle hay : String) : Bool :=
  listContains needle.data hay.data

/-- Python `hay.endswith(suffix)`. -/
def pyEndsWith (suffix s : String) : Bool :=
  suffix.data.isSuffixOf s.data

/-- The characters before the first occurrence of `needle`, or the whole list
when `needle` does not occur: `hay.split(needle, 1)[0]`. -/
def takeBeforeFirstL (needle : List Char) : List Char → List Char
  | [] => []
  | c :: rest =>
    if needle.isPrefixOf (c :: rest) then []
    else c :: takeBeforeFirstL needle rest

/-- `s.split(sep, 1)[0]` on strings. -/
def takeBeforeFirst (sep s : String) : String :=
  if strContains sep s then ⟨takeBeforeFirstL sep.data s.data⟩ else s

/-- Python `s.rstrip(chars)`: drop trailing characters drawn from `cs`. -/
def pyRstripSet (cs : List Char) (s : String) : String :=
  ⟨(s.data.reverse.dropWhile (fun c => cs.contains c)).reverse⟩

/-- Substring after the last occurrence of `c`, or the whole string when `c`
does not occur: `s.rsplit(c, 1)[-1]`. -/
def afterLastChar (c : Char) (s : String) : String :=
  ⟨(s.data.reverse.takeWhile (fun x => x ≠ c)).reverse⟩

/-- `line.split(":", 1)[-1]`: everything after the first colon, or the whole
line when it has no colon. -/
def afterFirstColon (s : String) : String :=
  if s.data.contains ':' then ⟨(s.data.dropWhile (fun c => c ≠ ':')).drop 1⟩ else s

/-- Python `str.splitlines()` (covering `\n`, `\r` and `\r\n`). -/
def pySplitLinesGo : List Char → List Char → List String
  | [], acc => if acc.isEmpty then [] else [⟨acc.reverse⟩]
  | '\r' :: '\n' :: rest, acc => (⟨acc.reverse⟩ : String) :: pySplitLinesGo rest []
  | '\r' :: rest, acc => (⟨acc.reverse⟩ : String) :: pySplitLinesGo rest []
  | '\n' :: rest, acc => (⟨acc.reverse⟩ : String) :: pySplitLinesGo rest []
  | c :: rest, acc => pySplitLinesGo rest (c :: acc)

/-- Python `str.splitlines()`. -/
def pySplitLines (s : String) : List String :=
  pySplitLinesGo s.data []

/-- Separator class of the regex `[;\n,]+`. -/
def isSep (c : Char) : Bool :=
  c = ';' || c = '\n' || c = ','

/-- Worker for `re.split(r"[;\n,]+", s)`: one split per run of separators,
keeping empty leading/trailing fields exactly as `re.split` does; the flag
records whether the previous character was a separator, so a run of
separators yields a single split. -/
def splitSepsGo : List Char → List Char → Bool → List String
  | [], acc, _ => [⟨acc.reverse⟩]
  | c :: rest, acc, inRun =>
    if isSep c then
      if inRun then splitSepsGo rest acc true
      else (⟨acc.reverse⟩ : String) :: splitSepsGo rest [] true
    else splitSepsGo rest (c :: acc) false

/-- `re.split(r"[;\n,]+", s)`. -/
def splitSeps (s : String) : List String :=
  splitSepsGo s.data [] false

/-! ## RDAP resolver and normalizer (`query_rdap`, source lines 54-262) -/

/-- One network interaction recorded for a domain: an RDAP query (bootstrap
fetch plus lookup), a WHOIS client query, or the direct `whois` subprocess
used for `.us` enrichment. -/
inductive NetCall where
  | rdap : String → NetCall
  | whois : String → NetCall
  | uswhois : String → NetCall
deriving Repr, DecidableEq

/-- Outcome of the network phase of `query_rdap` (bootstrap fetch, server
query, JSON decode), abstracted as an oracle result: the decoded JSON object,
an `httpx.HTTPStatusError` with its status code and rendered message, an
`httpx.RequestError` message, or any other exception message raised inside
the `try` block. -/
inductive RdapNetOutcome where
  | ok : List (String × J) → RdapNetOutcome
  | httpStatus : Nat → String → RdapNetOutcome
  | requestError : String → RdapNetOutcome
  | otherError : String → RdapNetOutcome

/-- `extract_status_code` (source lines 181-202): strip, drop an embedded
URL by keeping the text before the first " http", otherwise fall through to
the fragment/path branch, then trim trailing spaces/semicolons/periods. -/
def extract_status_code (s0 : String) : String :=
  let s := pyStrip s0
  if s = "" then ""
  else
    let s1 :=
      if strContains "http://" s || strContains "https://" s then
        let pre := pyStrip (takeBeforeFirst " http" s)
        if pre ≠ "" then pre
        else
          -- Unreachable for stripped input (kept from the source): URL-only
          -- token, take the fragment after the hash else the last segment.
          let url := s
          if strContains "#" url then afterLastChar '#' url
          else afterLastChar '/' (pyRstripSet ['/'] url)
      else s
    pyRstripSet [' ', ';', '.'] s1

/-- The parts a collected status value expands to (source lines 205-216):
a string splits on `[;\n,]+` into stripped non-empty pieces; a dict yields
the `str()` of its `type` member when present, else its own `str()`; any
other value yields its `str()`. -/
def extractParts : J → List String
  | .str s => (splitSeps s).filterMap (fun piece =>
      let p := pyStrip piece
      if p = "" then none else some p)
  | .obj l =>
    match jGet l "type" with
    | some t => [J.toStr t]
    | none => [J.toStr (.obj l)]
  | v => [J.toStr v]

/-- The formatting loop of `query_rdap` (source lines 204-221): expand each
collected status into parts, normalize each part, and append it unless it is
empty, the sentinel, or already present. -/
def rdapFormatStatuses (statuses : List J) : List String :=
  statuses.foldl (fun acc status =>
    (extractParts status).foldl (fun acc2 p =>
      let code := extract_status_code p
      if code ≠ "" && code ≠ "Not found" && !acc2.contains code then acc2 ++ [code]
      else acc2) acc) []

/-- Status collection from the five shapes scanned by the source
(lines 127-174): top-level `status`, `domainStatus`, `handle.status`, any
top-level key whose name contains "status", and any dict-valued top-level
entry with a `status` member. -/
def collectStatuses (data : List (String × J)) : List J :=
  let s1 :=
    match jGet data "status" with
    | some v =>
      if v.truthy then
        match v with
        | .arr l =>
          if l.all (fun s => match s with | .str _ => true | _ => false) then l
          else l.map (fun s =>
            match s with
            | .obj m => jGetD m "type" (.str (J.toStr s))
            | _ => .str (J.toStr s))
        | _ => [.str (J.toStr v)]
      else []
    | none => []
  let s2 :=
    match jGet data "domainStatus" with
    | some v =>
      if v.truthy then
        match v with
        | .arr l => l
        | _ => [v]
      else []
    | none => []
  let s3 :=
    match jGet data "handle" with
    | some (.obj entries) =>
      if !entries.isEmpty then
        match jGet entries "status" with
        | some hs =>
          if hs.truthy then
            match hs with
            | .arr l => l
            | _ => [.str (J.toStr hs)]
          else []
        | none => []
      else []
    | _ => []
  let s4 := data.flatMap (fun kv =>
    if strContains "status" (lowerStr kv.1) && kv.1 ≠ "status" && kv.1 ≠ "domainStatus" then
      match kv.2 with
      | .arr l => l.map (fun s => .str (J.toStr s))
      | v => [.str (J.toStr v)]
    else [])
  let s5 := data.flatMap (fun kv =>
    match kv.2 with
    | .obj entries =>
      match jGet entries "status" with
      | some nested =>
        match nested with
        | .arr l => l.map (fun s => .str (J.toStr s))
        | v => [.str (J.toStr v)]
      | none => []
    | _ => [])
  s1 ++ s2 ++ s3 ++ s4 ++ s5

/-- The hard-coded status list used by the `neustar.biz` special cases
(source lines 64-71 and 228-235). -/
def neustarStatusList : List String :=
  ["clientDeleteProhibited", "clientTransferProhibited", "clientUpdateProhibited",
   "serverDeleteProhibited", "serverTransferProhibited", "serverUpdateProhibited"]

/-- Final value of `parsed["statuses"]` (source lines 176-237): the formatted
collected statuses when any were found, otherwise the neustar fallback or the
sentinel singleton. -/
def rdapStatusStrings (d : String) (data : List (String × J)) : List String :=
  let statuses := collectStatuses data
  if !statuses.isEmpty then rdapFormatStatuses statuses
  else if lowerStr d = "neustar.biz" then neustarStatusList
  else ["Not found"]

/-- Registrar display name from the first entity with role "registrar", via
the `fn` entry of its vcard (source lines 114-124); `none` when absent. -/
def rdapRegistrarFn (data : List (String × J)) : Option J :=
  match (jGetD data "entities" (.arr [])).asArr.find? (fun e =>
      match (e.oget "roles").getD (.arr []) with
      | .arr l => l.any (fun x => J.beq x (.str "registrar"))
      | .str s => strContains "registrar" s
      | _ => false) with
  | some e =>
    let vcard := (e.oget "vcardArray").getD (.arr [.null, .arr []])
    match vcard with
    | .arr l =>
      if l.length > 1 && (l.getD 1 .null).truthy then
        match (l.getD 1 .null).asArr.find? (fun item =>
            J.beq ((item.asArr.getD 0 .null)) (.str "fn")) with
        | some fn => if fn.asArr.length > 3 then some (fn.asArr.getD 3 .null) else none
        | none => none
      else none
    | _ => none
  | none => none

/-- Net value of `parsed["registrar"]`: the vcard name or the sentinel
(source lines 114-124). -/
def rdapRegistrarVal (data : List (String × J)) : J :=
  (rdapRegistrarFn data).getD (.str "Not found")

/-- First event whose `eventAction` equals "registration"
(source line 241). -/
def findRegistrationEvent (data : List (String × J)) : Option J :=
  (jGetD data "events" (.arr [])).asArr.find? (fun e =>
    match e.oget "eventAction" with
    | some v => J.beq v (.str "registration")
    | none => false)

/-- `parsed["creation_date"]` (source line 242): `eventDate` of the first
registration event (which is Python `None` when that event has no
`eventDate`), else the sentinel string. -/
def rdap_creation_date (data : List (String × J)) : J :=
  match findRegistrationEvent data with
  | some e => (e.oget "eventDate").getD J.null
  | none => .str "Not found"

/-- `parsed["nameservers"]` (source lines 247-249): every truthy `ldhName`,
or the sentinel singleton. -/
def rdapNameserversVal (data : List (String × J)) : J :=
  let ns :=
    match jGet data "nameservers" with
    | some v =>
      if v.truthy then
        v.asArr.filterMap (fun n =>
          match n.oget "ldhName" with
          | some x => if x.truthy then some x else none
          | none => none)
      else []
    | none => []
  if ns.isEmpty then .arr [.str "Not found"] else .arr ns

/-- The dict `parsed` built by `query_rdap` for a decoded RDAP response
(source lines 112-251).  In the source, `registrar` is set conditionally then
defaulted, so its net value is factored into `rdapRegistrarVal`; the other
keys are set unconditionally in this order. -/
def parse_rdap (d : String) (data : List (String × J)) : PyDict :=
  (((((((PyDict.mk []).set "domain" (.str d)).set
    "registrar" (rdapRegistrarVal data)).set
    "statuses" (.arr ((rdapStatusStrings d data).map .str))).set
    "creation_date" (rdap_creation_date data)).set
    "registrant_name" (.str "Not available via RDAP")).set
    "nexus_categories" (.str "Not available via RDAP")).set
    "nameservers" (rdapNameserversVal data)

/-- The hard-coded `parsed` object returned for `neustar.biz`
(source lines 60-76). -/
def neustarParsed : PyDict :=
  ⟨[("domain", .str "neustar.biz"),
    ("registrar", .str "Registry Services, LLC"),
    ("statuses", .arr (neustarStatusList.map .str)),
    ("creation_date", .str "2001-11-07T00:00:00Z"),
    ("registrant_name", .str "Not available via RDAP"),
    ("nexus_categories", .str "Not available via RDAP"),
    ("nameservers", .arr [.str "ns1.dns.nic.biz", .str "ns2.dns.nic.biz"])]⟩

/-- The RDAP query URL (source lines 94-99): public proxy when the bootstrap
registry has no entry; otherwise the base with `domain/<name>` appended — the
same string in both the trailing-slash and no-trailing-slash branches. -/
def rdap_query_url (rdap_server_url : Option String) (d : String) : String :=
  match rdap_server_url with
  | none => "https://rdap.org/domain/" ++ d
  | some base =>
    if !(pyEndsWith "/" base) then base ++ "domain/" ++ d
    else base ++ "domain/" ++ d

/-- `query_rdap` (source lines 54-262): the neustar.biz special case answers
without any network call; otherwise the network phase runs and exceptions are
mapped to messages (404 → not found, 429 → rate limit, other HTTP/request/
generic errors → wrapped failure messages). -/
def query_rdap (netR : String → RdapNetOutcome) (d : String) :
    Except String PyDict × List NetCall :=
  if lowerStr d = "neustar.biz" then (.ok neustarParsed, [])
  else
    (match netR d with
     | .ok data => .ok (parse_rdap d data)
     | .httpStatus code e =>
       if code = 404 then .error ("RDAP: Domain " ++ d ++ " not found.")
       else if code = 429 then .error "RDAP: Rate limit reached."
       else .error ("RDAP lookup for " ++ d ++ " failed: HTTP " ++ toString code ++ " - " ++ e)
     | .requestError e => .error ("RDAP lookup for " ++ d ++ " failed: Request Error - " ++ e)
     | .otherError e => .error ("RDAP lookup for " ++ d ++ " failed: " ++ e),
     [.rdap d])

/-! ## WHOIS resolver and normalizer (`query_whois`, source lines 264-401) -/

/-- A creation-date value from the WHOIS client: a datetime-like object with
an `isoformat` rendering, or a plain string. -/
inductive WDate where
  | dt : String → WDate
  | s : String → WDate

/-- The `creation_date` attribute: either a single (possibly `None`) value or
a list of values. -/
inductive WDateField where
  | single : Option WDate → WDateField
  | list : List WDate → WDateField

/-- The object returned by `whois.query`, with the attributes the source
reads.  `none` in `text`/`statuses`/`status` models a missing attribute
(`hasattr` false); `registrar = none` models the Python `None` value. -/
structure WhoisRec where
  text : Option String
  registrar : Option String
  statuses : Option (List J)
  status : Option J
  creation_date : WDateField
  name_servers : List String

/-- Outcome of the `whois.query` call: a result object (possibly `None`), or
a raised exception with its message. -/
inductive WhoisNetOutcome where
  | ok : Option WhoisRec → WhoisNetOutcome
  | err : String → WhoisNetOutcome

/-- Truthiness of `w.registrar`. -/
def registrarTruthy (w : WhoisRec) : Bool :=
  match w.registrar with
  | some s => s != ""
  | none => false

/-- Truthiness of `hasattr(w, "text") and w.text`. -/
def textTruthy (w : WhoisRec) : Bool :=
  match w.text with
  | some t => t != ""
  | none => false

/-- The no-match test on the raw text (source line 275). -/
def whoisTextNoMatch (w : WhoisRec) : Bool :=
  match w.text with
  | some t => strContains "No match for domain" t || strContains "NOT FOUND" (upperStr t)
  | none => false

/-- `raw_statuses` (source lines 301-308): the `statuses` attribute when
truthy, else the `status` attribute (list as is, string split into stripped
non-empty lines), else empty. -/
def whoisRawStatuses (w : WhoisRec) : List J :=
  match w.statuses with
  | some l =>
    if !l.isEmpty then l
    else
      match w.status with
      | some (.arr l2) => l2
      | some (.str s) => (pySplitLines s).filterMap (fun x =>
          let t := pyStrip x
          if t = "" then none else some (.str t))
      | _ => []
  | none =>
    match w.status with
    | some (.arr l2) => l2
    | some (.str s) => (pySplitLines s).filterMap (fun x =>
        let t := pyStrip x
        if t = "" then none else some (.str t))
    | _ => []

/-- One iteration of the WHOIS status formatting loop (source lines
312-328): skip raw values already emitted, strip a `" https://"` URL suffix
from strings, drop empty and sentinel strings, and append non-string values
unchanged. -/
def whoisFormatStep (acc : List J) (status : J) : List J :=
  if acc.any (fun x => J.beq x status) then acc
  else
    match status with
    | .str s =>
      let status_code :=
        if strContains "https://" s then pyStrip (takeBeforeFirst " https://" s)
        else pyStrip s
      if status_code ≠ "" && status_code ≠ "Not found" then acc ++ [.str status_code]
      else acc
    | v => acc ++ [v]

/-- The WHOIS status formatting loop (source lines 311-328). -/
def whoisFormatStatuses (raw : List J) : List J :=
  raw.foldl whoisFormatStep []

/-- `parsed["registrant_name"]` (source lines 283-298 and 369-371): for `.us`
domains the value extracted from the direct `whois` output (last matching
line), otherwise the first matching line of the raw text; the default
sentinel when nothing matches or the command failed. -/
def whoisRegistrantName (usO : String → Except String String) (d : String)
    (w : WhoisRec) : String :=
  if pyEndsWith ".us" (lowerStr d) then
    match usO d with
    | .ok out =>
      match ((pySplitLines out).filter (fun line =>
          strContains "Registrant Name:" line)).getLast? with
      | some line => pyStrip (afterFirstColon line)
      | none => "Not found"
    | .error _ => "Not found"
  else
    match w.text with
    | some t =>
      if t != "" then
        match (pySplitLines t).find? (fun line =>
            strContains "Registrant Name:" line || strContains "registrant:" line) with
        | some line => pyStrip (afterFirstColon line)
        | none => "Not found"
      else "Not found"
    | none => "Not found"

/-- `parsed["creation_date"]` (source lines 337-340). -/
def whoisCreationDate (w : WhoisRec) : J :=
  let cdv :=
    match w.creation_date with
    | .list l => l.head?
    | .single v => v
  match cdv with
  | some (.dt iso) => .str iso
  | some (.s v) => if v != "" then .str v else .str "Not found"
  | none => .str "Not found"

/-- `parsed["nexus_categories"]` (source lines 342-391): for `.us` domains,
the joined labels scraped from the direct `whois` output (last matching lines)
or the failure sentinels; otherwise the inapplicability sentinel. -/
def whoisNexusCategories (usO : String → Except String String) (d : String) : String :=
  if pyEndsWith ".us" (lowerStr d) then
    match usO d with
    | .ok out =>
      let lines := pySplitLines out
      let nexus_results :=
        (match (lines.filter (fun line =>
            strContains "Registrant Application Purpose:" line)).getLast? with
         | some line => ["Application Purpose: " ++ pyStrip (afterFirstColon line)]
         | none => []) ++
        (match (lines.filter (fun line =>
            strContains "Registrant Nexus Category:" line)).getLast? with
         | some line => ["Nexus Category: " ++ pyStrip (afterFirstColon line)]
         | none => [])
      if !nexus_results.isEmpty then String.intercalate "; " nexus_results
      else "Not found in direct .US WHOIS output"
    | .error e => "Whois command failed: " ++ e
  else "N/A (not .US domain)"

/-- The dict `parsed` built by `query_whois` once the result object passed
the failure checks (source lines 280-397).  The `.us` branch overwrites
`registrant_name` in place, so its net value is factored into
`whoisRegistrantName`; key order matches source insertion order. -/
def whois_build (usO : String → Except String String) (d : String)
    (w : WhoisRec) : PyDict :=
  (((((((PyDict.mk []).set "domain" (.str d)).set
    "registrar" (match w.registrar with
      | some s => if s != "" then .str s else .str "Not found"
      | none => .str "Not found")).set
    "registrant_name" (.str (whoisRegistrantName usO d w))).set
    "statuses" (let fs := whoisFormatStatuses (whoisRawStatuses w)
      if !fs.isEmpty then .arr fs else .arr [.str "Not found"])).set
    "creation_date" (whoisCreationDate w)).set
    "nexus_categories" (.str (whoisNexusCategories usO d))).set
    "nameservers" (if !w.name_servers.isEmpty then .arr (w.name_servers.map .str)
      else .arr [.str "Not found"])

/-- The `try` body of `query_whois` (source lines 266-397): the not-found
raises, then the parsed dict; also records whether the `.us` subprocess was
invoked. -/
def whois_try (netW : String → WhoisNetOutcome) (usO : String → Except String String)
    (d : String) : Except String PyDict × List NetCall :=
  match netW d with
  | .err e => (.error e, [.whois d])
  | .ok none => (.error ("WHOIS: Domain " ++ d ++ " not found."), [.whois d])
  | .ok (some w) =>
    if whoisTextNoMatch w then
      (.error ("WHOIS: Domain " ++ d ++ " not found."), [.whois d])
    else if !registrarTruthy w && !textTruthy w then
      (.error ("WHOIS: Domain " ++ d ++ " not found or lookup failed (no registrar)."),
       [.whois d])
    else
      (.ok (whois_build usO d w),
       .whois d :: (if pyEndsWith ".us" (lowerStr d) then [.uswhois d] else []))

/-- The `except` clause of `query_whois` (source lines 398-401): any failure
whose message contains "limit" (case-insensitively) is reclassified as a rate
limit; everything else is wrapped as a lookup failure. -/
def wrapWhoisError (d e : String) : String :=
  if strContains "limit" (lowerStr e) then "WHOIS: Rate limit reached for " ++ d ++ "."
  else "WHOIS lookup for " ++ d ++ " failed: " ++ e

/-- `query_whois` (source lines 264-401). -/
def query_whois (netW : String → WhoisNetOutcome) (usO : String → Except String String)
    (d : String) : Except String PyDict × List NetCall :=
  match whois_try netW usO d with
  | (.ok r, c) => (.ok r, c)
  | (.error e, c) => (.error (wrapWhoisError d e), c)

/-! ## Batch stream controller and endpoint (source lines 403-523) -/

/-- The request model (`LookupRequest`). -/
structure LookupRequest where
  domains : List String
  fields : List String
  use_rdap : Bool

/-- Stream events (`total`, `message`, `result`, `error`) with their
payloads. -/
inductive Event where
  | total : Nat → Event
  | message : String → Event
  | result : PyDict → Event
  | error : String → Event
deriving Repr

/-- Record payload of a `result` event, if the event is one. -/
def eventRec : Event → Option PyDict
  | .result r => some r
  | _ => none

/-- Records of the `result` events of a stream, in order. -/
def resultRecords (evs : List Event) : List PyDict :=
  evs.filterMap eventRec

/-- Events of an annotated stream (dropping the per-domain call lists). -/
def eventsOf (l : List (Event × List NetCall)) : List Event :=
  l.map (fun p => p.1)

/-- `ALLOWED_FIELDS` (source lines 22-30). -/
def ALLOWED_FIELDS : List String :=
  ["domain", "registrar", "registrant_name", "statuses", "creation_date",
   "nexus_categories", "nameservers"]

/-- The per-domain lookup orchestration inside the generator loop (source
lines 429-449): RDAP first when requested, re-raising rate limits, falling
back to WHOIS otherwise; straight WHOIS when RDAP is not requested.  Returns
the raw data with the `_method` tag, or the propagated failure message, plus
the network calls attempted. -/
def attempt_lookup (u : Bool) (netR : String → RdapNetOutcome)
    (netW : String → WhoisNetOutcome) (usO : String → Except String String)
    (d : String) : Except String (PyDict × String) × List NetCall :=
  if u then
    match query_rdap netR d with
    | (.ok data, calls) => (.ok (data, "RDAP"), calls)
    | (.error msg, calls) =>
      if strContains "Rate limit reached" msg then (.error msg, calls)
      else
        match query_whois netW usO d with
        | (.ok data, calls2) => (.ok (data, "WHOIS (RDAP fallback)"), calls ++ calls2)
        | (.error msg2, calls2) => (.error msg2, calls ++ calls2)
  else
    match query_whois netW usO d with
    | (.ok data, calls) => (.ok (data, "WHOIS"), calls)
    | (.error msg, calls) => (.error msg, calls)

/-- `current_result` as initialized at the top of the loop body (source
lines 414-415): every requested field mapped to "Processing...", then the
domain itself. -/
def initResult (fields : List String) (d : String) : PyDict :=
  (fields.foldl (fun r f => r.set f (.str "Processing...")) (PyDict.mk [])).set
    "domain" (.str d)

/-- Overwrite every requested field except `domain` with a placeholder
string (the loop at source lines 418-420 and 460-467). -/
def setFieldsExceptDomain (r : PyDict) (fields : List String) (v : String) : PyDict :=
  fields.foldl (fun r f => if f = "domain" then r else r.set f (.str v)) r

/-- The record emitted for a domain skipped because the global rate-limit
flag was already set (source lines 417-422). -/
def rateLimitedRecord (fields : List String) (d : String) : PyDict :=
  (setFieldsExceptDomain (initResult fields d) fields "Rate limit reached").set
    "error_message" (.str "Rate limit reached, further lookups stopped.")

/-- The record emitted for the domain whose own lookup raised the rate-limit
signal (source lines 458-463). -/
def rlExcRecord (fields : List String) (d : String) : PyDict :=
  (setFieldsExceptDomain (initResult fields d) fields "Rate limit reached").set
    "error_message"
    (.str "Rate limit reached. Subsequent lookups for other domains will also be marked as rate-limited.")

/-- The record emitted for a domain whose lookup failed for any other reason
(source lines 464-468). -/
def failedRecord (fields : List String) (d : String) (msg : String) : PyDict :=
  (setFieldsExceptDomain (initResult fields d) fields "Lookup failed").set
    "error_message" (.str ("Failed: " ++ msg))

/-- The record emitted on success (source lines 451-453): each requested
field copied from the raw data with a sentinel default, then the `_method`
tag. -/
def successRecord (fields : List String) (d : String) (data : PyDict)
    (method : String) : PyDict :=
  (fields.foldl (fun r f => r.set f ((data.get f).getD (.str "Not found")))
    (initResult fields d)).set "_method" (.str method)

/-- One iteration of the generator loop (source lines 412-470): the emitted
event, the updated global rate-limit flag, and the network calls made. -/
def processDomain (fields : List String) (u : Bool) (netR : String → RdapNetOutcome)
    (netW : String → WhoisNetOutcome) (usO : String → Except String String)
    (flag : Bool) (d : String) : Event × Bool × List NetCall :=
  if flag then (.result (rateLimitedRecord fields d), true, [])
  else
    match attempt_lookup u netR netW usO d with
    | (.ok (data, method), calls) => (.result (successRecord fields d data method), false, calls)
    | (.error msg, calls) =>
      if strContains "Rate limit reached" msg then (.result (rlExcRecord fields d), true, calls)
      else (.result (failedRecord fields d msg), false, calls)

/-- The generator loop over the domain list, threading the global rate-limit
flag; each element pairs the emitted event with the calls made for that
domain. -/
def streamLoop (fields : List String) (u : Bool) (netR : String → RdapNetOutcome)
    (netW : String → WhoisNetOutcome) (usO : String → Except String String) :
    Bool → List String → List (Event × List NetCall)
  | _, [] => []
  | flag, d :: rest =>
    let step := processDomain fields u netR netW usO flag d
    (step.1, step.2.2) :: streamLoop fields u netR netW usO step.2.1 rest

/-- The cleaned list the generator computes from the request (source
line 405): strip each entry and drop the empty ones. -/
def generatorDomainList (domains : List String) : List String :=
  (domains.map pyStrip).filter (fun d => d ≠ "")

/-- `lookup_and_stream_generator` (source lines 403-471): the `total` and
`message` header events followed by one `result` event per domain. -/
def lookup_and_stream_generator (req : LookupRequest) (netR : String → RdapNetOutcome)
    (netW : String → WhoisNetOutcome) (usO : String → Except String String) :
    List (Event × List NetCall) :=
  let domain_list := generatorDomainList req.domains
  (.total domain_list.length, []) :: (.message "Lookup started", []) ::
    streamLoop req.fields req.use_rdap netR netW usO false domain_list

/-- The validation loop of the endpoint (source lines 483-495): strip, drop
empties and over-long entries, deduplicate case-insensitively keeping the
first occurrence. -/
def cleanDomainsAux : List String → List String → List String
  | _, [] => []
  | seen, d :: rest =>
    let dn := pyStrip d
    if dn = "" then cleanDomainsAux seen rest
    else if dn.length > 255 then cleanDomainsAux seen rest
    else if (lowerStr dn) ∈ seen then cleanDomainsAux seen rest
    else dn :: cleanDomainsAux (lowerStr dn :: seen) rest

/-- `cleaned_domains` as computed by the endpoint. -/
def cleanDomains (domains : List String) : List String :=
  cleanDomainsAux [] domains

/-- `whois_lookup_endpoint` (source lines 476-523): validation, the two
empty-input error streams, the 500-domain cap, the field filter, and the
delegation to the generator. -/
def whois_lookup_endpoint (req : LookupRequest) (netR : String → RdapNetOutcome)
    (netW : String → WhoisNetOutcome) (usO : String → Except String String) :
    List (Event × List NetCall) :=
  let cleaned_domains := cleanDomains req.domains
  if cleaned_domains.isEmpty then
    [(.total 0, []), (.error "No valid domains provided.", [])]
  else
    let cleaned_domains :=
      if cleaned_domains.length > 500 then cleaned_domains.take 500 else cleaned_domains
    let cleaned_fields := req.fields.filter (fun f => ALLOWED_FIELDS.contains f)
    if cleaned_fields.isEmpty then
      [(.total 0, []), (.error "No valid fields requested.", [])]
    else
      lookup_and_stream_generator ⟨cleaned_domains, cleaned_fields, req.use_rdap⟩ netR netW usO

/-! ## Basic dictionary lemmas -/

theorem dictGet_dictSet (k k' : String) (v : J) (l : List (String × J)) :
    dictGet k' (dictSet k v l) = if k' = k then some v else dictGet k' l := by
  induction l with
  | nil =>
    by_cases h : k' = k
    · simp [dictGet, dictSet, h]
    · simp [dictGet, dictSet, h, Ne.symm h]
  | cons p rest ih =>
    obtain ⟨k0, v0⟩ := p
    by_cases h0 : k0 = k
    · subst h0
      by_cases h : k' = k0
      · simp [dictGet, dictSet, h]
      · simp [dictGet, dictSet, h, Ne.symm h]
    · simp only [dictSet, if_neg h0, dictGet]
      by_cases h : k0 = k'
      · subst h
        simp [dictGet, h0]
      · simp [dictGet, h, ih]

theorem PyDict.get_set (r : PyDict) (k : String) (v : J) (k' : String) :
    (r.set k v).get k' = if k' = k then some v else r.get k' := by
  simp [PyDict.get, PyDict.set, dictGet_dictSet]

theorem PyDict.get_mk_nil (k : String) : (PyDict.mk []).get k = none := rfl

theorem get_foldl_set (fields : List String) (g : String → J) (r : PyDict) (k : String) :
    (fields.foldl (fun r f => r.set f (g f)) r).get k =
      if k ∈ fields then some (g k) else r.get k := by
  induction fields generalizing r with
  | nil => simp
  | cons f fs ih =>
    simp only [List.foldl_cons]
    rw [ih]
    by_cases hk : k ∈ fs
    · simp [hk]
    · by_cases hf : k = f
      · subst hf
        simp [hk, PyDict.get_set]
      · simp [hk, hf, PyDict.get_set]

theorem get_setFieldsExceptDomain (r : PyDict) (fields : List String) (v : String)
    (k : String) :
    (setFieldsExceptDomain r fields v).get k =
      if k ∈ fields ∧ k ≠ "domain" then some (.str v) else r.get k := by
  induction fields generalizing r with
  | nil => simp [setFieldsExceptDomain]
  | cons f fs ih =>
    simp only [setFieldsExceptDomain, List.foldl_cons] at ih ⊢
    by_cases hf : f = "domain"
    · rw [if_pos hf, ih]
      subst hf
      by_cases hkd : k = "domain"
      · simp [hkd]
      · simp [hkd, List.mem_cons]
    · rw [if_neg hf, ih, PyDict.get_set]
      by_cases hkf : k = f
      · subst hkf
        simp [hf, List.mem_cons]
      · simp [hkf, List.mem_cons]

theorem initResult_get (fields : List String) (d : String) (k : String) :
    (initResult fields d).get k =
      if k = "domain" then some (.str d)
      else if k ∈ fields then some (.str "Processing...") else none := by
  unfold initResult
  rw [PyDict.get_set]
  by_cases hk : k = "domain"
  · simp [hk]
  · rw [if_neg hk, if_neg hk, get_foldl_set]
    by_cases hmem : k ∈ fields <;> simp [hmem, PyDict.get_mk_nil]

/-- Shared lookup shape of the three error-record builders. -/
theorem get_errShape (fields : List String) (d v msg : String) (k : String) :
    (((setFieldsExceptDomain (initResult fields d) fields v).set
        "error_message" (.str msg)).get k) =
      if k = "error_message" then some (.str msg)
      else if k = "domain" then some (.str d)
      else if k ∈ fields then some (.str v) else none := by
  rw [PyDict.get_set]
  by_cases hem : k = "error_message"
  · simp [hem]
  · rw [if_neg hem, if_neg hem, get_setFieldsExceptDomain, initResult_get]
    by_cases hkd : k = "domain"
    · simp [hkd]
    · by_cases hmem : k ∈ fields <;> simp [hkd, hmem]

theorem rateLimitedRecord_get (fields : List String) (d : String) (k : String) :
    (rateLimitedRecord fields d).get k =
      if k = "error_message" then some (.str "Rate limit reached, further lookups stopped.")
      else if k = "domain" then some (.str d)
      else if k ∈ fields then some (.str "Rate limit reached") else none :=
  get_errShape fields d "Rate limit reached" _ k

theorem rlExcRecord_get (fields : List String) (d : String) (k : String) :
    (rlExcRecord fields d).get k =
      if k = "error_message" then
        some (.str "Rate limit reached. Subsequent lookups for other domains will also be marked as rate-limited.")
      else if k = "domain" then some (.str d)
      else if k ∈ fields then some (.str "Rate limit reached") else none :=
  get_errShape fields d "Rate limit reached" _ k

theorem failedRecord_get (fields : List String) (d : String) (msg : String) (k : String) :
    (failedRecord fields d msg).get k =
      if k = "error_message" then some (.str ("Failed: " ++ msg))
      else if k = "domain" then some (.str d)
      else if k ∈ fields then some (.str "Lookup failed") else none :=
  get_errShape fields d "Lookup failed" _ k

theorem successRecord_get (fields : List String) (d : String) (data : PyDict)
    (method : String) (k : String) :
    (successRecord fields d data method).get k =
      if k = "_method" then some (.str method)
      else if k ∈ fields then some ((data.get k).getD (.str "Not found"))
      else if k = "domain" then some (.str d) else none := by
  unfold successRecord
  rw [PyDict.get_set]
  by_cases hm : k = "_method"
  · simp [hm]
  · rw [if_neg hm, if_neg hm, get_foldl_set, initResult_get]
    by_cases hmem : k ∈ fields
    · simp [hmem]
    · by_cases hkd : k = "domain" <;> simp [hmem, hkd]

/-- The `parsed` dict of a decoded RDAP response echoes the queried domain. -/
theorem parse_rdap_get_domain (d : String) (data : List (String × J)) :
    (parse_rdap d data).get "domain" = some (.str d) := by
  unfold parse_rdap
  rw [PyDict.get_set, if_neg (by simp), PyDict.get_set, if_neg (by simp),
    PyDict.get_set, if_neg (by simp), PyDict.get_set, if_neg (by simp),
    PyDict.get_set, if_neg (by simp), PyDict.get_set, if_neg (by simp),
    PyDict.get_set, if_pos rfl]

/-- The `parsed` dict built by the WHOIS path echoes the queried domain. -/
theorem whois_build_get_domain (usO : String → Except String String) (d : String)
    (w : WhoisRec) : (whois_build usO d w).get "domain" = some (.str d) := by
  unfold whois_build
  rw [PyDict.get_set, if_neg (by simp), PyDict.get_set, if_neg (by simp),
    PyDict.get_set, if_neg (by simp), PyDict.get_set, if_neg (by simp),
    PyDict.get_set, if_neg (by simp), PyDict.get_set, if_neg (by simp),
    PyDict.get_set, if_pos rfl]

/-- A successful `query_rdap` returns a record whose `domain` field echoes
the queried name, or — exactly when the name lowercases to "neustar.biz" —
the override value "neustar.biz". -/
theorem query_rdap_ok_domain_cases (netR : String → RdapNetOutcome) (d : String)
    (data : PyDict) (calls : List NetCall)
    (h : query_rdap netR d = (.ok data, calls)) :
    data.get "domain" = some (.str d) ∨
      (lowerStr d = "neustar.biz" ∧ data.get "domain" = some (.str "neustar.biz")) := by
  by_cases hd : lowerStr d = "neustar.biz"
  · simp [query_rdap, hd] at h
    right
    refine ⟨hd, ?_⟩
    rw [← h.1]
    rfl
  · left
    cases hnet : netR d with
    | ok jd =>
      simp [query_rdap, hd, hnet] at h
      rw [← h.1]
      exact parse_rdap_get_domain d jd
    | httpStatus code e =>
      simp [query_rdap, hd, hnet] at h
      obtain ⟨h1, -⟩ := h
      split at h1
      · simp at h1
      · split at h1 <;> simp at h1
    | requestError e =>
      simp [query_rdap, hd, hnet] at h
    | otherError e =>
      simp [query_rdap, hd, hnet] at h

/-- A successful `whois_try` result is the parsed dict of some WHOIS record. -/
theorem whois_try_ok (netW : String → WhoisNetOutcome)
    (usO : String → Except String String) (d : String) (r : PyDict)
    (c : List NetCall) (h : whois_try netW usO d = (.ok r, c)) :
    ∃ w, r = whois_build usO d w := by
  cases hnet : netW d with
  | err e =>
    simp [whois_try, hnet] at h
  | ok wOpt =>
    cases wOpt with
    | none => simp [whois_try, hnet] at h
    | some w =>
      simp [whois_try, hnet] at h
      split at h
      · simp at h
      · split at h
        · simp at h
        · simp at h
          exact ⟨w, h.1.symm⟩

/-- A successful `query_whois` returns a record whose `domain` field echoes
the queried name. -/
theorem query_whois_ok_domain (netW : String → WhoisNetOutcome)
    (usO : String → Except String String) (d : String) (data : PyDict)
    (calls : List NetCall) (h : query_whois netW usO d = (.ok data, calls)) :
    data.get "domain" = some (.str d) := by
  cases htry : whois_try netW usO d with
  | mk res c =>
    cases res with
    | ok r =>
      simp [query_whois, htry] at h
      obtain ⟨w, hw⟩ := whois_try_ok netW usO d r c htry
      rw [← h.1, hw]
      exact whois_build_get_domain usO d w
    | error e => simp [query_whois, htry] at h

/-- A successful per-domain lookup yields raw data echoing the queried name,
or — only over RDAP for a name lowercasing to "neustar.biz" — the override
value "neustar.biz". -/
theorem attempt_lookup_ok_domain_cases (u : Bool) (netR : String → RdapNetOutcome)
    (netW : String → WhoisNetOutcome) (usO : String → Except String String)
    (d : String) (data : PyDict) (method : String) (calls : List NetCall)
    (h : attempt_lookup u netR netW usO d = (.ok (data, method), calls)) :
    data.get "domain" = some (.str d) ∨
      (u = true ∧ lowerStr d = "neustar.biz" ∧
       data.get "domain" = some (.str "neustar.biz")) := by
  cases u with
  | true =>
    cases hq : query_rdap netR d with
    | mk res c =>
      cases res with
      | ok dd =>
        simp [attempt_lookup, hq] at h
        rcases query_rdap_ok_domain_cases netR d dd c hq with hcase | ⟨hneu, hval⟩
        · left
          exact h.1.1 ▸ hcase
        · right
          exact ⟨rfl, hneu, h.1.1 ▸ hval⟩
      | error msg =>
        by_cases hrl : strContains "Rate limit reached" msg = true
        · simp [attempt_lookup, hq, hrl] at h
        · cases hw : query_whois netW usO d with
          | mk res2 c2 =>
            cases res2 with
            | ok dd2 =>
              simp [attempt_lookup, hq, hrl, hw] at h
              left
              exact h.1.1 ▸ query_whois_ok_domain netW usO d dd2 c2 hw
            | error msg2 =>
              simp [attempt_lookup, hq, hrl, hw] at h
  | false =>
    cases hw : query_whois netW usO d with
    | mk res c =>
      cases res with
      | ok dd =>
        simp [attempt_lookup, hw] at h
        left
        exact h.1.1 ▸ query_whois_ok_domain netW usO d dd c hw
      | error msg =>
        simp [attempt_lookup, hw] at h

/-- Each generator-loop iteration emits a `result` event whose record either
keeps the processed domain in its `domain` field, or — only with RDAP
requested, `domain` among the requested fields, and the domain lowercasing
to "neustar.biz" — carries the override value "neustar.biz". -/
theorem processDomain_domain_cases (fields : List String) (u : Bool)
    (netR : String → RdapNetOutcome) (netW : String → WhoisNetOutcome)
    (usO : String → Except String String) (flag : Bool) (d : String) :
    ∃ r, (processDomain fields u netR netW usO flag d).1 = .result r ∧
      (r.get "domain" = some (.str d) ∨
       (u = true ∧ "domain" ∈ fields ∧ lowerStr d = "neustar.biz" ∧
        r.get "domain" = some (.str "neustar.biz"))) := by
  cases flag with
  | true =>
    refine ⟨rateLimitedRecord fields d, rfl, Or.inl ?_⟩
    rw [rateLimitedRecord_get]
    simp
  | false =>
    cases ha : attempt_lookup u netR netW usO d with
    | mk res calls =>
      cases res with
      | ok p =>
        obtain ⟨data, method⟩ := p
        refine ⟨successRecord fields d data method, by simp [processDomain, ha], ?_⟩
        rw [successRecord_get]
        by_cases hm : "domain" ∈ fields
        · rcases attempt_lookup_ok_domain_cases u netR netW usO d data method calls ha with
            hcase | ⟨hu, hneu, hval⟩
          · left
            simp [hm, hcase]
          · right
            exact ⟨hu, hm, hneu, by simp [hm, hval]⟩
        · left
          simp [hm]
      | error msg =>
        by_cases hrl : strContains "Rate limit reached" msg = true
        · refine ⟨rlExcRecord fields d, by simp [processDomain, ha, hrl], Or.inl ?_⟩
          rw [rlExcRecord_get]
          simp
        · refine ⟨failedRecord fields d msg, by simp [processDomain, ha, hrl], Or.inl ?_⟩
          rw [failedRecord_get]
          simp

/-- The generator loop emits exactly one event per domain. -/
theorem streamLoop_length (fields : List String) (u : Bool)
    (netR : String → RdapNetOutcome) (netW : String → WhoisNetOutcome)
    (usO : String → Except String String) (ds : List String) (flag : Bool) :
    (streamLoop fields u netR netW usO flag ds).length = ds.length := by
  induction ds generalizing flag with
  | nil => rfl
  | cons d rest ih => simp [streamLoop, ih]

/-- The loop records are pointwise related to the domain list: each record
echoes its domain, or falls in the neustar.biz override corner.  The
relation forces equal lengths, so there is exactly one record per domain, in
order, for every flag state and oracle behaviour. -/
theorem streamLoop_domains_forall2 (fields : List String) (u : Bool)
    (netR : String → RdapNetOutcome) (netW : String → WhoisNetOutcome)
    (usO : String → Except String String) (ds : List String) : ∀ flag : Bool,
    List.Forall₂ (fun r d => PyDict.get r "domain" = some (J.str d) ∨
        (u = true ∧ "domain" ∈ fields ∧ lowerStr d = "neustar.biz" ∧
         PyDict.get r "domain" = some (J.str "neustar.biz")))
      (resultRecords (eventsOf (streamLoop fields u netR netW usO flag ds))) ds := by
  induction ds with
  | nil =>
    intro flag
    exact List.Forall₂.nil
  | cons d rest ih =>
    intro flag
    obtain ⟨r, hr, hcase⟩ := processDomain_domain_cases fields u netR netW usO flag d
    have heq : streamLoop fields u netR netW usO flag (d :: rest) =
        ((processDomain fields u netR netW usO flag d).1,
         (processDomain fields u netR netW usO flag d).2.2) ::
          streamLoop fields u netR netW usO
            (processDomain fields u netR netW usO flag d).2.1 rest := rfl
    rw [heq]
    simp only [eventsOf, List.map_cons, resultRecords, List.filterMap_cons, hr, eventRec]
    have htail := ih ((processDomain fields u netR netW usO flag d).2.1)
    exact List.Forall₂.cons hcase (by simpa [resultRecords, eventsOf] using htail)

/-- Pointwise-related lists have equal maps when the relation forces the
mapped values to agree. -/
theorem forall2_map_eq {α β γ : Type} (f : α → γ) (g : β → γ) (P : α → β → Prop)
    (h : ∀ a b, P a b → f a = g b) :
    ∀ l1 l2, List.Forall₂ P l1 l2 → l1.map f = l2.map g := by
  intro l1 l2 hf
  induction hf with
  | nil => rfl
  | cons hab htail ih => simp [List.map_cons, h _ _ hab, ih]

/-! ## Concrete oracles used by witnesses and counterexamples -/

/-- Oracle: every RDAP network phase fails with a request error. -/
def rdapDown : String → RdapNetOutcome := fun _ => .requestError "boom"

/-- Oracle: every RDAP network phase is answered with HTTP 429. -/
def rdap429 : String → RdapNetOutcome := fun _ => .httpStatus 429 ""

/-- Oracle: the WHOIS client raises. -/
def whoisDown : String → WhoisNetOutcome := fun _ => .err "down"

/-- Oracle: the WHOIS client returns `None`. -/
def whoisNone : String → WhoisNetOutcome := fun _ => .ok none

/-- Oracle: the direct `whois` subprocess fails. -/
def usNone : String → Except String String := fun _ => .error "no cmd"

/-- C2, counterexample.  For the batch `["NEUSTAR.BIZ"]` with `fields =
["domain"]` and `use_rdap = true`, the cleaned entry is the case-preserved
"NEUSTAR.BIZ", yet the single result event carries `domain = "neustar.biz"`:
the hard-coded neustar.biz override supplies the lowercase name, so the
emitted `domain` field does not equal the cleaned input entry. -/
theorem c2_domain_echo_counterexample :
    eventsOf (whois_lookup_endpoint ⟨["NEUSTAR.BIZ"], ["domain"], true⟩
        rdapDown whoisDown usNone) =
      [.total 1, .message "Lookup started",
       .result ⟨[("domain", .str "neustar.biz"), ("_method", .str "RDAP")]⟩] ∧
    cleanDomains ["NEUSTAR.BIZ"] = ["NEUSTAR.BIZ"] ∧
    (PyDict.mk [("domain", J.str "neustar.biz"), ("_method", J.str "RDAP")]).get "domain" =
      some (.str "neustar.biz") ∧
    J.str "neustar.biz" ≠ J.str "NEUSTAR.BIZ" := by
  refine ⟨rfl, rfl, rfl, ?_⟩
  intro h
  injection h with h2
  exact absurd h2 (by decide)

/-- C2 (amended).  Unconditionally, for every batch and every oracle
behaviour: the stream opens with the `total` and `message` headers and then
emits exactly one `result` event per cleaned domain, in input order (the
pointwise relation forces one record per domain).  Each event carries a
`domain` field that equals the case-preserved trimmed cleaned entry, except
in one corner: with `use_rdap` true and `domain` among the requested fields,
a domain whose lowercase form is "neustar.biz" receives the hard-coded
override value "neustar.biz" in place of its submitted spelling.  In
particular, whenever `domain` is not among the requested fields the echo
holds for every domain, re-cased neustar.biz spellings included. -/
theorem c2_domain_echo_amended (req : LookupRequest)
    (netR : String → RdapNetOutcome) (netW : String → WhoisNetOutcome)
    (usO : String → Except String String) :
    (eventsOf (lookup_and_stream_generator req netR netW usO)).take 2 =
      [.total (generatorDomainList req.domains).length, .message "Lookup started"] ∧
    (eventsOf (lookup_and_stream_generator req netR netW usO)).length =
      (generatorDomainList req.domains).length + 2 ∧
    List.Forall₂ (fun r d => PyDict.get r "domain" = some (J.str d) ∨
        (req.use_rdap = true ∧ "domain" ∈ req.fields ∧ lowerStr d = "neustar.biz" ∧
         PyDict.get r "domain" = some (J.str "neustar.biz")))
      (resultRecords (eventsOf (lookup_and_stream_generator req netR netW usO)))
      (generatorDomainList req.domains) ∧
    ("domain" ∉ req.fields →
      (resultRecords (eventsOf (lookup_and_stream_generator req netR netW usO))).map
        (fun r => r.get "domain") =
      (generatorDomainList req.domains).map (fun d => some (J.str d))) := by
  have hforall : List.Forall₂ (fun r d => PyDict.get r "domain" = some (J.str d) ∨
      (req.use_rdap = true ∧ "domain" ∈ req.fields ∧ lowerStr d = "neustar.biz" ∧
       PyDict.get r "domain" = some (J.str "neustar.biz")))
      (resultRecords (eventsOf (lookup_and_stream_generator req netR netW usO)))
      (generatorDomainList req.domains) := by
    simp only [lookup_and_stream_generator, eventsOf, List.map_cons, resultRecords,
      List.filterMap_cons, eventRec]
    exact streamLoop_domains_forall2 req.fields req.use_rdap netR netW usO
      (generatorDomainList req.domains) false
  refine ⟨rfl, ?_, hforall, ?_⟩
  · simp only [lookup_and_stream_generator, eventsOf, List.length_map, List.length_cons,
      streamLoop_length]
  · intro hnotin
    refine forall2_map_eq _ _ _ ?_ _ _ hforall
    intro r d hp
    rcases hp with hp | ⟨-, hmem, -, -⟩
    · exact hp
    · exact absurd hmem hnotin

/-- C2, witness: a batch containing the re-cased spelling "NEUSTAR.BIZ" with
`domain` not among the requested fields — the header, the one-event-per-domain
count, and the unconditional echo (lowercase override included) all hold. -/
theorem c2_domain_echo_amended_witness :
    (eventsOf (lookup_and_stream_generator ⟨["NEUSTAR.BIZ", "b.com"], ["registrar"], true⟩
        rdapDown whoisDown usNone)).length = 4 ∧
    (resultRecords (eventsOf (lookup_and_stream_generator
        ⟨["NEUSTAR.BIZ", "b.com"], ["registrar"], true⟩ rdapDown whoisDown usNone))).map
        (fun r => r.get "domain") =
      [some (J.str "NEUSTAR.BIZ"), some (J.str "b.com")] := by
  have h := c2_domain_echo_amended ⟨["NEUSTAR.BIZ", "b.com"], ["registrar"], true⟩
    rdapDown whoisDown usNone
  exact ⟨h.2.1, h.2.2.2 (by decide)⟩

/-- Once the flag is set, the loop emits only rate-limited placeholder
records and makes no network calls. -/
theorem streamLoop_flagged (fields : List String) (u : Bool)
    (netR : String → RdapNetOutcome) (netW : String → WhoisNetOutcome)
    (usO : String → Except String String) (ds : List String) :
    streamLoop fields u netR netW usO true ds =
      ds.map (fun d => (Event.result (rateLimitedRecord fields d), ([] : List NetCall))) := by
  induction ds with
  | nil => rfl
  | cons d rest ih => simp [streamLoop, processDomain, ih]

/-- C1.  Once a domain of the batch raises a rate-limit signal, every
subsequent domain yields a result event whose requested non-domain fields
are the rate-limited placeholder, with no network call attempted for those
domains (the per-event call lists are all empty). -/
theorem c1_rate_limit_short_circuit (fields : List String) (u : Bool)
    (netR : String → RdapNetOutcome) (netW : String → WhoisNetOutcome)
    (usO : String → Except String String) (d : String) (ds : List String)
    (msg : String) (calls : List NetCall)
    (hf : ∀ f ∈ fields, f ∈ ALLOWED_FIELDS)
    (h : attempt_lookup u netR netW usO d = (.error msg, calls))
    (hrl : strContains "Rate limit reached" msg = true) :
    (streamLoop fields u netR netW usO false (d :: ds)).tail =
      ds.map (fun d2 => (Event.result (rateLimitedRecord fields d2), ([] : List NetCall))) ∧
    ∀ d2 f, f ∈ fields → f ≠ "domain" →
      (rateLimitedRecord fields d2).get f = some (.str "Rate limit reached") := by
  constructor
  · have hstep : (processDomain fields u netR netW usO false d).2.1 = true := by
      simp [processDomain, h, hrl]
    have heq : streamLoop fields u netR netW usO false (d :: ds) =
        ((processDomain fields u netR netW usO false d).1,
         (processDomain fields u netR netW usO false d).2.2) ::
          streamLoop fields u netR netW usO
            (processDomain fields u netR netW usO false d).2.1 ds := rfl
    rw [heq, List.tail_cons, hstep, streamLoop_flagged]
  · intro d2 f hfin hfd
    have hfe : f ≠ "error_message" := by
      intro hh
      subst hh
      have := hf _ hfin
      simp [ALLOWED_FIELDS] at this
    rw [rateLimitedRecord_get]
    simp [hfe, hfd, hfin]

/-- C1, witness: a two-domain batch where the first RDAP query answers
HTTP 429; the second domain is short-circuited with no calls and placeholder
fields. -/
theorem c1_rate_limit_short_circuit_witness :
    (streamLoop ["registrar"] true rdap429 whoisDown usNone false
        ["a.com", "b.com"]).tail =
      [(Event.result (rateLimitedRecord ["registrar"] "b.com"), ([] : List NetCall))] ∧
    (rateLimitedRecord ["registrar"] "b.com").get "registrar" =
      some (.str "Rate limit reached") := by
  have h := c1_rate_limit_short_circuit ["registrar"] true rdap429 whoisDown usNone
    "a.com" ["b.com"] "RDAP: Rate limit reached." [.rdap "a.com"]
    (by decide) rfl rfl
  exact ⟨h.1, h.2 "b.com" "registrar" (by decide) (by decide)⟩

/-- The call list of `query_rdap` is empty (neustar override) or the single
RDAP interaction; in particular it never contains WHOIS calls. -/
theorem query_rdap_calls (netR : String → RdapNetOutcome) (d : String) :
    (query_rdap netR d).2 = [] ∨ (query_rdap netR d).2 = [NetCall.rdap d] := by
  unfold query_rdap
  by_cases hd : lowerStr d = "neustar.biz"
  · rw [if_pos hd]
    left
    rfl
  · rw [if_neg hd]
    right
    rfl

/-- C3.  Per-domain orchestration with `use_rdap = true`: an RDAP success is
tagged "RDAP"; an RDAP rate-limit failure propagates without any WHOIS call
and sets the global flag; any other RDAP failure falls back to WHOIS and a
WHOIS success is tagged "WHOIS (RDAP fallback)".  With `use_rdap = false`, a
WHOIS success is tagged "WHOIS"; and the `_method` key of a success record
always holds the tag. -/
theorem c3_method_tagging (fields : List String) (netR : String → RdapNetOutcome)
    (netW : String → WhoisNetOutcome) (usO : String → Except String String)
    (d : String) :
    (∀ data calls, query_rdap netR d = (.ok data, calls) →
      processDomain fields true netR netW usO false d =
        (.result (successRecord fields d data "RDAP"), false, calls)) ∧
    (∀ msg calls, query_rdap netR d = (.error msg, calls) →
      strContains "Rate limit reached" msg = true →
      attempt_lookup true netR netW usO d = (.error msg, calls) ∧
      (∀ d2, NetCall.whois d2 ∉ calls ∧ NetCall.uswhois d2 ∉ calls) ∧
      (processDomain fields true netR netW usO false d).2.1 = true) ∧
    (∀ msg calls data calls2, query_rdap netR d = (.error msg, calls) →
      strContains "Rate limit reached" msg = false →
      query_whois netW usO d = (.ok data, calls2) →
      processDomain fields true netR netW usO false d =
        (.result (successRecord fields d data "WHOIS (RDAP fallback)"), false,
         calls ++ calls2)) ∧
    (∀ data calls, query_whois netW usO d = (.ok data, calls) →
      processDomain fields false netR netW usO false d =
        (.result (successRecord fields d data "WHOIS"), false, calls)) ∧
    (∀ method data, (successRecord fields d data method).get "_method" =
      some (.str method)) := by
  refine ⟨?_, ?_, ?_, ?_, ?_⟩
  · intro data calls hq
    simp [processDomain, attempt_lookup, hq]
  · intro msg calls hq hrl
    refine ⟨by simp [attempt_lookup, hq, hrl], ?_, by simp [processDomain, attempt_lookup, hq, hrl]⟩
    intro d2
    rcases query_rdap_calls netR d with hq2 | hq2 <;> rw [hq] at hq2
    · have hc : calls = [] := hq2
      subst hc
      constructor <;> intro hmem <;> simp at hmem
    · have hc : calls = [NetCall.rdap d] := hq2
      subst hc
      constructor <;> intro hmem <;> simp at hmem
  · intro msg calls data calls2 hq hrl hw
    simp [processDomain, attempt_lookup, hq, hrl, hw]
  · intro data calls hw
    simp [processDomain, attempt_lookup, hw]
  · intro method data
    rw [successRecord_get]
    simp

/-- A WHOIS record whose lookup fully succeeds, for witnesses. -/
def whoisOkRec : WhoisRec :=
  { text := some "Registrant Name: Alice", registrar := some "R",
    statuses := some [.str "ok"], status := none,
    creation_date := .single none, name_servers := ["ns1"] }

/-- Oracle: the WHOIS client answers with `whoisOkRec`. -/
def whoisUp : String → WhoisNetOutcome := fun _ => .ok (some whoisOkRec)

/-- C3, witness: RDAP fails with a non-rate-limit error, WHOIS succeeds, and
the emitted record is tagged "WHOIS (RDAP fallback)". -/
theorem c3_method_tagging_witness :
    processDomain ["registrar"] true rdapDown whoisUp usNone false "a.com" =
      (.result (successRecord ["registrar"] "a.com"
        (whois_build usNone "a.com" whoisOkRec) "WHOIS (RDAP fallback)"), false,
       [NetCall.rdap "a.com", NetCall.whois "a.com"]) ∧
    (successRecord ["registrar"] "a.com" (whois_build usNone "a.com" whoisOkRec)
        "WHOIS (RDAP fallback)").get "_method" =
      some (.str "WHOIS (RDAP fallback)") := by
  have h := c3_method_tagging ["registrar"] rdapDown whoisUp usNone "a.com"
  refine ⟨?_, h.2.2.2.2 _ _⟩
  exact h.2.2.1 "RDAP lookup for a.com failed: Request Error - boom" [.rdap "a.com"]
    (whois_build usNone "a.com" whoisOkRec) [.whois "a.com"] rfl rfl rfl

/-- Whether a per-domain lookup outcome is a success. -/
def isOkB : Except String (PyDict × String) → Bool
  | .ok _ => true
  | .error _ => false

/-- C10.  Every emitted result record contains `_method` exactly when the
lookup succeeded (flag clear and orchestration returned data) and contains
`error_message` exactly when it did not (flag set, failure, or rate limit);
the two Boolean equalities make the keys mutually exclusive on every record. -/
theorem c10_method_error_keys (fields : List String) (u : Bool)
    (netR : String → RdapNetOutcome) (netW : String → WhoisNetOutcome)
    (usO : String → Except String String) (flag : Bool) (d : String)
    (hf : ∀ f ∈ fields, f ∈ ALLOWED_FIELDS) :
    ((eventRec (processDomain fields u netR netW usO flag d).1).isSome = true) ∧
    (((eventRec (processDomain fields u netR netW usO flag d).1).bind
        (fun r => r.get "_method")).isSome =
      (!flag && isOkB (attempt_lookup u netR netW usO d).1)) ∧
    (((eventRec (processDomain fields u netR netW usO flag d).1).bind
        (fun r => r.get "error_message")).isSome =
      (flag || !isOkB (attempt_lookup u netR netW usO d).1)) := by
  have hm : "_method" ∉ fields := by
    intro hmem
    have := hf _ hmem
    simp [ALLOWED_FIELDS] at this
  have he : "error_message" ∉ fields := by
    intro hmem
    have := hf _ hmem
    simp [ALLOWED_FIELDS] at this
  cases flag with
  | true =>
    refine ⟨rfl, ?_, ?_⟩
    · simp [processDomain, eventRec, rateLimitedRecord_get, hm]
    · simp [processDomain, eventRec, rateLimitedRecord_get]
  | false =>
    cases ha : attempt_lookup u netR netW usO d with
    | mk res calls =>
      cases res with
      | ok p =>
        obtain ⟨data, method⟩ := p
        refine ⟨by simp [processDomain, ha, eventRec], ?_, ?_⟩
        · simp [processDomain, ha, eventRec, successRecord_get, isOkB]
        · simp [processDomain, ha, eventRec, successRecord_get, isOkB, he]
      | error msg =>
        by_cases hrl : strContains "Rate limit reached" msg = true
        · refine ⟨by simp [processDomain, ha, hrl, eventRec], ?_, ?_⟩
          · simp [processDomain, ha, hrl, eventRec, rlExcRecord_get, isOkB, hm]
          · simp [processDomain, ha, hrl, eventRec, rlExcRecord_get, isOkB]
        · refine ⟨by simp [processDomain, ha, hrl, eventRec], ?_, ?_⟩
          · simp [processDomain, ha, hrl, eventRec, failedRecord_get, isOkB, hm]
          · simp [processDomain, ha, hrl, eventRec, failedRecord_get, isOkB]

/-- C10, witness: the theorem at a concrete failing lookup. -/
theorem c10_method_error_keys_witness :
    ((eventRec (processDomain ["registrar"] true rdapDown whoisDown usNone
        false "a.com").1).isSome = true) ∧
    (((eventRec (processDomain ["registrar"] true rdapDown whoisDown usNone
        false "a.com").1).bind (fun r => r.get "_method")).isSome =
      (!false && isOkB (attempt_lookup true rdapDown whoisDown usNone "a.com").1)) ∧
    (((eventRec (processDomain ["registrar"] true rdapDown whoisDown usNone
        false "a.com").1).bind (fun r => r.get "error_message")).isSome =
      (false || !isOkB (attempt_lookup true rdapDown whoisDown usNone "a.com").1)) :=
  c10_method_error_keys ["registrar"] true rdapDown whoisDown usNone false "a.com"
    (by decide)

/-- List-level strip used by `pyStrip`. -/
theorem pyStrip_data (s : String) :
    (pyStrip s).data =
      List.rdropWhile Char.isWhitespace (List.dropWhile Char.isWhitespace s.data) := rfl

/-- Python strip is idempotent. -/
theorem pyStrip_idem (s : String) : pyStrip (pyStrip s) = pyStrip s := by
  have key : ∀ l : List Char,
      List.dropWhile Char.isWhitespace
        (List.rdropWhile Char.isWhitespace (List.dropWhile Char.isWhitespace l)) =
      List.rdropWhile Char.isWhitespace (List.dropWhile Char.isWhitespace l) := by
    intro l
    rw [List.dropWhile_eq_self_iff]
    intro hl
    have hpre :=
      List.rdropWhile_prefix Char.isWhitespace (List.dropWhile Char.isWhitespace l)
    have hlen : 0 < (List.dropWhile Char.isWhitespace l).length := by
      obtain ⟨t, ht⟩ := hpre
      rw [← ht, List.length_append]
      omega
    have hnot := List.dropWhile_get_zero_not Char.isWhitespace l hlen
    have hget := List.IsPrefix.getElem hpre hl
    simp only [List.get_eq_getElem] at hnot ⊢
    rw [← hget] at hnot
    exact hnot
  have hdata : (pyStrip (pyStrip s)).data = (pyStrip s).data := by
    rw [pyStrip_data, pyStrip_data, key, List.rdropWhile_idempotent]
  exact congrArg String.mk hdata

/-- Every entry kept by the validation loop is stripped, non-empty and at
most 255 characters. -/
theorem cleanDomainsAux_mem (ds : List String) : ∀ seen, ∀ d ∈ cleanDomainsAux seen ds,
    pyStrip d = d ∧ d ≠ "" ∧ d.length ≤ 255 := by
  induction ds with
  | nil =>
    intro seen d hd
    simp [cleanDomainsAux] at hd
  | cons x rest ih =>
    intro seen d hd
    simp only [cleanDomainsAux] at hd
    by_cases h1 : pyStrip x = ""
    · rw [if_pos h1] at hd
      exact ih _ d hd
    · rw [if_neg h1] at hd
      by_cases h2 : (pyStrip x).length > 255
      · rw [if_pos h2] at hd
        exact ih _ d hd
      · rw [if_neg h2] at hd
        by_cases h3 : lowerStr (pyStrip x) ∈ seen
        · rw [if_pos h3] at hd
          exact ih _ d hd
        · rw [if_neg h3] at hd
          rcases List.mem_cons.mp hd with rfl | hd2
          · exact ⟨pyStrip_idem x, h1, by omega⟩
          · exact ih _ d hd2

/-- The validation loop yields pairwise case-insensitively distinct entries,
none of whose lowercase forms were already seen. -/
theorem cleanDomainsAux_pairwise (ds : List String) : ∀ seen,
    ((cleanDomainsAux seen ds).Pairwise (fun a b => lowerStr a ≠ lowerStr b)) ∧
    (∀ d ∈ cleanDomainsAux seen ds, lowerStr d ∉ seen) := by
  induction ds with
  | nil =>
    intro seen
    exact ⟨List.Pairwise.nil, by simp [cleanDomainsAux]⟩
  | cons x rest ih =>
    intro seen
    simp only [cleanDomainsAux]
    by_cases h1 : pyStrip x = ""
    · rw [if_pos h1]
      exact ih seen
    · rw [if_neg h1]
      by_cases h2 : (pyStrip x).length > 255
      · rw [if_pos h2]
        exact ih seen
      · rw [if_neg h2]
        by_cases h3 : lowerStr (pyStrip x) ∈ seen
        · rw [if_pos h3]
          exact ih seen
        · rw [if_neg h3]
          constructor
          · refine List.Pairwise.cons ?_ (ih (lowerStr (pyStrip x) :: seen)).1
            intro b hb
            have := (ih (lowerStr (pyStrip x) :: seen)).2 b hb
            intro hcontra
            exact this (by rw [← hcontra]; exact List.mem_cons_self _ _)
          · intro d hd
            rcases List.mem_cons.mp hd with rfl | hd2
            · exact h3
            · have := (ih (lowerStr (pyStrip x) :: seen)).2 d hd2
              intro hcontra
              exact this (List.mem_cons_of_mem _ hcontra)

/-- C7.  Input validation: the dedup example; every cleaned entry is trimmed,
non-empty and length-capped; cleaned entries are case-insensitively distinct
(first occurrence kept); an empty cleaned domain list or an empty filtered
field list short-circuits to the `total: 0` + `error` stream with no result
events; otherwise the stream runs on the first 500 cleaned domains and the
order-preserving filtered fields. -/
theorem c7_validation (req : LookupRequest) (netR : String → RdapNetOutcome)
    (netW : String → WhoisNetOutcome) (usO : String → Except String String) :
    cleanDomains ["a.com", "A.COM", " a.com "] = ["a.com"] ∧
    (∀ ds, ∀ d ∈ cleanDomains ds, pyStrip d = d ∧ d ≠ "" ∧ d.length ≤ 255) ∧
    (∀ ds, (cleanDomains ds).Pairwise (fun a b => lowerStr a ≠ lowerStr b)) ∧
    (cleanDomains req.domains = [] →
      whois_lookup_endpoint req netR netW usO =
        [(.total 0, []), (.error "No valid domains provided.", [])]) ∧
    (cleanDomains req.domains ≠ [] →
      req.fields.filter (fun f => ALLOWED_FIELDS.contains f) = [] →
      whois_lookup_endpoint req netR netW usO =
        [(.total 0, []), (.error "No valid fields requested.", [])]) ∧
    (cleanDomains req.domains ≠ [] →
      req.fields.filter (fun f => ALLOWED_FIELDS.contains f) ≠ [] →
      whois_lookup_endpoint req netR netW usO =
        lookup_and_stream_generator
          ⟨(cleanDomains req.domains).take 500,
           req.fields.filter (fun f => ALLOWED_FIELDS.contains f), req.use_rdap⟩
          netR netW usO) := by
  refine ⟨rfl, fun ds => cleanDomainsAux_mem ds [], fun ds => (cleanDomainsAux_pairwise ds []).1,
    ?_, ?_, ?_⟩
  · intro h
    simp [whois_lookup_endpoint, h]
  · intro hne hf
    simp only [whois_lookup_endpoint]
    rw [if_neg (by simpa [List.isEmpty_iff] using hne), hf]
    rfl
  · intro hne hf
    simp only [whois_lookup_endpoint]
    rw [if_neg (by simpa [List.isEmpty_iff] using hne),
      if_neg (by simpa [List.isEmpty_iff] using hf)]
    by_cases hlen : (cleanDomains req.domains).length > 500
    · rw [if_pos hlen]
    · rw [if_neg hlen, List.take_of_length_le (by omega)]

/-- C7, witness: the endpoint at a concrete request with one bogus field. -/
theorem c7_validation_witness :
    cleanDomains ["a.com", "A.COM", " a.com "] = ["a.com"] ∧
    whois_lookup_endpoint ⟨["a.com"], ["registrar", "bogus"], true⟩ rdapDown whoisDown usNone =
      lookup_and_stream_generator
        ⟨(cleanDomains ["a.com"]).take 500,
         (["registrar", "bogus"] : List String).filter (fun f => ALLOWED_FIELDS.contains f),
         true⟩ rdapDown whoisDown usNone := by
  have h := c7_validation ⟨["a.com"], ["registrar", "bogus"], true⟩ rdapDown whoisDown usNone
  exact ⟨h.1, h.2.2.2.2.2 (by decide) (by decide)⟩

/-- C9.  The RDAP query-URL construction yields `base ++ "domain/" ++ name`
whether or not the bootstrap base URL ends in a slash: the two branches of
the source are the same function. -/
theorem c9_url_branches_equal (base d : String) :
    rdap_query_url (some base) d = base ++ "domain/" ++ d := by
  cases h : pyEndsWith "/" base <;> simp [rdap_query_url, h]

/-- The `creation_date` entry of a parsed RDAP record. -/
theorem parse_rdap_get_creation_date (d : String) (data : List (String × J)) :
    (parse_rdap d data).get "creation_date" = some (rdap_creation_date data) := by
  unfold parse_rdap
  rw [PyDict.get_set, if_neg (by simp), PyDict.get_set, if_neg (by simp),
    PyDict.get_set, if_neg (by simp), PyDict.get_set, if_pos rfl]

/-- C8, counterexample.  An RDAP payload whose first registration event has
no `eventDate` yields `creation_date = None` (JSON null), which is neither a
timestamp string nor the sentinel "Not found". -/
theorem c8_null_creation_date_counterexample :
    (parse_rdap "a.com"
        [("events", .arr [.obj [("eventAction", .str "registration")]])]).get
      "creation_date" = some J.null ∧
    J.null ≠ J.str "Not found" := by
  refine ⟨rfl, ?_⟩
  intro h
  exact J.noConfusion h

/-- C8 (amended).  `creation_date` is the `eventDate` of the first event
whose `eventAction` is "registration" when such an event exists — which is
Python `None` when that event lacks an `eventDate` — and the sentinel
"Not found" only when no registration event exists. -/
theorem c8_creation_date_amended (d : String) (data : List (String × J)) :
    (findRegistrationEvent data = none →
      (parse_rdap d data).get "creation_date" = some (.str "Not found")) ∧
    (∀ e, findRegistrationEvent data = some e →
      (parse_rdap d data).get "creation_date" =
        some ((e.oget "eventDate").getD J.null)) := by
  constructor
  · intro h
    rw [parse_rdap_get_creation_date]
    unfold rdap_creation_date
    rw [h]
  · intro e h
    rw [parse_rdap_get_creation_date]
    unfold rdap_creation_date
    rw [h]

/-- C8, witness: an RDAP payload with no events at all gets the sentinel. -/
theorem c8_creation_date_amended_witness :
    (parse_rdap "a.com" []).get "creation_date" = some (.str "Not found") :=
  (c8_creation_date_amended "a.com" []).1 rfl

/-- The inner RDAP formatting fold keeps the accumulator duplicate-free and
free of empty tokens. -/
theorem rdapFormat_inner_invariant (parts : List String) : ∀ acc : List String,
    acc.Nodup → "" ∉ acc →
    ((parts.foldl (fun acc2 p =>
      let code := extract_status_code p
      if code ≠ "" && code ≠ "Not found" && !acc2.contains code then acc2 ++ [code]
      else acc2) acc).Nodup ∧
    "" ∉ parts.foldl (fun acc2 p =>
      let code := extract_status_code p
      if code ≠ "" && code ≠ "Not found" && !acc2.contains code then acc2 ++ [code]
      else acc2) acc) := by
  induction parts with
  | nil =>
    intro acc h1 h2
    exact ⟨h1, h2⟩
  | cons p rest ih =>
    intro acc h1 h2
    simp only [List.foldl_cons]
    by_cases hc : (extract_status_code p ≠ "" && extract_status_code p ≠ "Not found" &&
        !acc.contains (extract_status_code p)) = true
    · simp only [hc, if_true]
      apply ih
      · rw [List.nodup_append]
        refine ⟨h1, List.nodup_singleton _, ?_⟩
        intro a ha hmem
        rw [List.mem_singleton] at hmem
        subst hmem
        simp only [Bool.and_eq_true, Bool.not_eq_true', ne_eq, decide_not] at hc
        exact absurd (List.elem_iff.mpr ha) (by simpa using hc.2)
      · intro hmem
        rcases List.mem_append.mp hmem with hmem | hmem
        · exact h2 hmem
        · rw [List.mem_singleton] at hmem
          simp only [Bool.and_eq_true, Bool.not_eq_true', ne_eq, decide_not] at hc
          exact absurd hmem.symm (by simpa using hc.1.1)
    · simp only [hc, if_false]
      exact ih acc h1 h2

/-- The outer RDAP formatting fold preserves the invariant. -/
theorem rdapFormat_outer_invariant (statuses : List J) : ∀ acc : List String,
    acc.Nodup → "" ∉ acc →
    ((statuses.foldl (fun acc status =>
      (extractParts status).foldl (fun acc2 p =>
        let code := extract_status_code p
        if code ≠ "" && code ≠ "Not found" && !acc2.contains code then acc2 ++ [code]
        else acc2) acc) acc).Nodup ∧
    "" ∉ statuses.foldl (fun acc status =>
      (extractParts status).foldl (fun acc2 p =>
        let code := extract_status_code p
        if code ≠ "" && code ≠ "Not found" && !acc2.contains code then acc2 ++ [code]
        else acc2) acc) acc) := by
  induction statuses with
  | nil =>
    intro acc h1 h2
    exact ⟨h1, h2⟩
  | cons st rest ih =>
    intro acc h1 h2
    simp only [List.foldl_cons]
    obtain ⟨ha, hb⟩ := rdapFormat_inner_invariant (extractParts st) acc h1 h2
    exact ih _ ha hb

/-- The RDAP formatting loop yields duplicate-free, empty-free tokens. -/
theorem rdapFormatStatuses_invariant (statuses : List J) :
    (rdapFormatStatuses statuses).Nodup ∧ "" ∉ rdapFormatStatuses statuses :=
  rdapFormat_outer_invariant statuses [] List.nodup_nil (by simp)

/-- The `statuses` entry of a parsed RDAP record. -/
theorem parse_rdap_get_statuses (d : String) (data : List (String × J)) :
    (parse_rdap d data).get "statuses" =
      some (.arr ((rdapStatusStrings d data).map .str)) := by
  unfold parse_rdap
  rw [PyDict.get_set, if_neg (by simp), PyDict.get_set, if_neg (by simp),
    PyDict.get_set, if_neg (by simp), PyDict.get_set, if_neg (by simp),
    PyDict.get_set, if_pos rfl]

/-- One WHOIS formatting step never introduces the empty string token. -/
theorem whoisFormatStep_no_empty (status : J) (acc : List J) (h : J.str "" ∉ acc) :
    J.str "" ∉ whoisFormatStep acc status := by
  by_cases hdup : acc.any (fun x => J.beq x status) = true
  · simpa [whoisFormatStep, hdup] using h
  · cases status with
    | str s =>
      simp only [whoisFormatStep, hdup, Bool.false_eq_true, if_false]
      split <;> split
      all_goals
        first
        | exact h
        | (rename_i hcond
           intro hmem
           rcases List.mem_append.mp hmem with hmem | hmem
           · exact h hmem
           · rw [List.mem_singleton] at hmem
             injection hmem with hmem2
             simp only [Bool.and_eq_true, decide_eq_true_eq, ne_eq] at hcond
             exact hcond.1 hmem2.symm)
    | num n =>
      simp only [whoisFormatStep, hdup, Bool.false_eq_true, if_false]
      intro hmem
      rcases List.mem_append.mp hmem with hmem | hmem
      · exact h hmem
      · rw [List.mem_singleton] at hmem
        exact J.noConfusion hmem
    | bool b =>
      simp only [whoisFormatStep, hdup, Bool.false_eq_true, if_false]
      intro hmem
      rcases List.mem_append.mp hmem with hmem | hmem
      · exact h hmem
      · rw [List.mem_singleton] at hmem
        exact J.noConfusion hmem
    | null =>
      simp only [whoisFormatStep, hdup, Bool.false_eq_true, if_false]
      intro hmem
      rcases List.mem_append.mp hmem with hmem | hmem
      · exact h hmem
      · rw [List.mem_singleton] at hmem
        exact J.noConfusion hmem
    | arr l =>
      simp only [whoisFormatStep, hdup, Bool.false_eq_true, if_false]
      intro hmem
      rcases List.mem_append.mp hmem with hmem | hmem
      · exact h hmem
      · rw [List.mem_singleton] at hmem
        exact J.noConfusion hmem
    | obj l =>
      simp only [whoisFormatStep, hdup, Bool.false_eq_true, if_false]
      intro hmem
      rcases List.mem_append.mp hmem with hmem | hmem
      · exact h hmem
      · rw [List.mem_singleton] at hmem
        exact J.noConfusion hmem

/-- The WHOIS formatting loop never emits the empty string token. -/
theorem whoisFormatStatuses_no_empty (raw : List J) :
    J.str "" ∉ whoisFormatStatuses raw := by
  unfold whoisFormatStatuses
  suffices hgen : ∀ acc : List J, J.str "" ∉ acc →
      J.str "" ∉ raw.foldl whoisFormatStep acc by
    exact hgen [] (by simp)
  induction raw with
  | nil =>
    intro acc h
    exact h
  | cons status rest ih =>
    intro acc h
    simp only [List.foldl_cons]
    exact ih _ (whoisFormatStep_no_empty status acc h)

/-- The `statuses` entry of a parsed WHOIS record. -/
theorem whois_build_get_statuses (usO : String → Except String String) (d : String)
    (w : WhoisRec) :
    (whois_build usO d w).get "statuses" =
      some (if !(whoisFormatStatuses (whoisRawStatuses w)).isEmpty
        then .arr (whoisFormatStatuses (whoisRawStatuses w))
        else .arr [.str "Not found"]) := by
  unfold whois_build
  rw [PyDict.get_set, if_neg (by simp), PyDict.get_set, if_neg (by simp),
    PyDict.get_set, if_neg (by simp), PyDict.get_set, if_pos rfl]

/-- A WHOIS record whose raw statuses normalize to a duplicated token. -/
def whoisDupRec : WhoisRec :=
  { text := some "x", registrar := some "R",
    statuses := some [.str "ok ", .str " ok"], status := none,
    creation_date := .single none, name_servers := ["ns1"] }

/-- Oracle: the WHOIS client answers with `whoisDupRec`. -/
def whoisDupNet : String → WhoisNetOutcome := fun _ => .ok (some whoisDupRec)

/-- C5, counterexample.  The WHOIS path deduplicates on the raw status
values before URL-stripping and trimming, so the raw statuses
`["ok ", " ok"]` — distinct raw strings normalizing to the same token —
produce the record statuses `["ok", "ok"]`, which contains a duplicate. -/
theorem c5_whois_duplicate_counterexample :
    (query_whois whoisDupNet usNone "a.com").1 =
      .ok (whois_build usNone "a.com" whoisDupRec) ∧
    (whois_build usNone "a.com" whoisDupRec).get "statuses" =
      some (.arr [.str "ok", .str "ok"]) ∧
    ¬ ([J.str "ok", J.str "ok"] : List J).Nodup := by
  refine ⟨rfl, rfl, ?_⟩
  intro h
  exact (List.nodup_cons.mp h).1 (List.mem_singleton.mpr rfl)

/-- C5 (amended).  The RDAP normalization path never produces duplicate or
empty status tokens (including the fallback singletons), and the WHOIS path
never produces empty string tokens; but the WHOIS path deduplicates raw
values before normalization, so duplicates can survive there (see the
counterexample). -/
theorem c5_status_invariants_amended :
    (∀ d data, (rdapStatusStrings d data).Nodup ∧ "" ∉ rdapStatusStrings d data) ∧
    (∀ d data, (parse_rdap d data).get "statuses" =
      some (.arr ((rdapStatusStrings d data).map .str))) ∧
    (∀ raw, J.str "" ∉ whoisFormatStatuses raw) ∧
    (∀ usO d w, (whois_build usO d w).get "statuses" =
      some (if !(whoisFormatStatuses (whoisRawStatuses w)).isEmpty
        then .arr (whoisFormatStatuses (whoisRawStatuses w))
        else .arr [.str "Not found"])) := by
  refine ⟨?_, parse_rdap_get_statuses, whoisFormatStatuses_no_empty, whois_build_get_statuses⟩
  intro d data
  unfold rdapStatusStrings
  by_cases hne : (collectStatuses data).isEmpty
  · rw [if_neg (by simp [hne])]
    by_cases hd : lowerStr d = "neustar.biz"
    · rw [if_pos hd]
      constructor
      · decide
      · decide
    · rw [if_neg hd]
      constructor
      · exact List.nodup_singleton _
      · simp
  · rw [if_pos (by simp [hne])]
    exact rdapFormatStatuses_invariant (collectStatuses data)

/-- When the needle never occurs, the cut-before-needle is the identity. -/
theorem takeBeforeFirstL_of_not_contains (needle : List Char) (l : List Char)
    (h : listContains needle l = false) : takeBeforeFirstL needle l = l := by
  induction l with
  | nil => rfl
  | cons c rest ih =>
    simp only [listContains, Bool.or_eq_false_iff] at h
    simp only [takeBeforeFirstL, h.1, Bool.false_eq_true, if_false]
    rw [ih h.2]

/-- `s.split(sep, 1)[0]` is the identity when `sep` does not occur. -/
theorem takeBeforeFirst_of_not_contains (sep s : String)
    (h : strContains sep s = false) : takeBeforeFirst sep s = s := by
  unfold takeBeforeFirst
  rw [if_neg (by simp [h])]

/-- C6, counterexample.  A URL-only status token is kept whole: the
fragment-extraction branch of `extract_status_code` is unreachable, because
the token is stripped first and the split key " http" starts with a space, so
the text before the first " http" of a URL-only token is the whole token.
The claim predicts the fragment "clientTransferProhibited"; the code keeps
the entire URL, both at the token level and through the full RDAP pipeline. -/
theorem c6_url_only_token_counterexample :
    extract_status_code "https://icann.org/epp#clientTransferProhibited" =
      "https://icann.org/epp#clientTransferProhibited" ∧
    (parse_rdap "a.com"
        [("status", .arr [.str "https://icann.org/epp#clientTransferProhibited"])]).get
      "statuses" =
      some (.arr [.str "https://icann.org/epp#clientTransferProhibited"]) ∧
    "https://icann.org/epp#clientTransferProhibited" ≠ "clientTransferProhibited" := by
  refine ⟨rfl, rfl, ?_⟩
  decide

/-- C6 (amended).  Each collected status string is split on semicolons,
commas and newlines into stripped non-empty pieces; a token containing
" http" keeps only the (stripped) text before it; every other token — in
particular a URL-only token, for which the fragment branch is dead code — is
kept whole after trailing space/semicolon/period trimming.  The spec example
extracts exactly ["clientTransferProhibited", "ok"]. -/
theorem c6_status_tokenization_amended :
    rdapFormatStatuses
      [.str "clientTransferProhibited https://icann.org/epp#clientTransferProhibited; ok"] =
      ["clientTransferProhibited", "ok"] ∧
    (parse_rdap "a.com"
        [("status",
          .str "clientTransferProhibited https://icann.org/epp#clientTransferProhibited; ok")]).get
      "statuses" =
      some (.arr [.str "clientTransferProhibited", .str "ok"]) ∧
    (∀ s, extractParts (J.str s) = (splitSeps s).filterMap (fun piece =>
      let p := pyStrip piece
      if p = "" then none else some p)) ∧
    (∀ s, strContains " http" (pyStrip s) = false →
      extract_status_code s = pyRstripSet [' ', ';', '.'] (pyStrip s)) := by
  refine ⟨rfl, rfl, fun s => rfl, ?_⟩
  intro s hns
  unfold extract_status_code
  by_cases h0 : pyStrip s = ""
  · rw [if_pos h0, h0]
    rfl
  · rw [if_neg h0]
    by_cases hurl : (strContains "http://" (pyStrip s) ||
        strContains "https://" (pyStrip s)) = true
    · rw [if_pos hurl]
      rw [takeBeforeFirst_of_not_contains _ _ hns, pyStrip_idem]
      rw [if_pos h0]
    · rw [if_neg hurl]

/-- C6, witness: the no-fragment normal form at a URL-only token. -/
theorem c6_status_tokenization_amended_witness :
    extract_status_code "https://icann.org/epp#ok" =
      pyRstripSet [' ', ';', '.'] (pyStrip "https://icann.org/epp#ok") :=
  c6_status_tokenization_amended.2.2.2 "https://icann.org/epp#ok" rfl

/-- C4, counterexample.  The outer handler of `query_whois` reclassifies any
failure whose message contains "limit" (case-insensitively) as a rate limit,
and the not-found message embeds the domain name: the domain "limit.com",
whose WHOIS lookup returns an empty result (not found), is reported as
rate-limited — the message the batch controller tests for "Rate limit
reached" — so NotFound and RateLimited are not distinct outcomes. -/
theorem c4_notfound_ratelimit_counterexample :
    (query_whois whoisNone usNone "limit.com").1 =
      .error "WHOIS: Rate limit reached for limit.com." ∧
    strContains "Rate limit reached" "WHOIS: Rate limit reached for limit.com." = true := by
  exact ⟨rfl, rfl⟩

/-- C4 (amended).  `query_whois` raises the not-found message on an empty
result, a no-match marker, or a missing registrar with no raw text; the
outer handler then classifies the failure as rate-limited exactly when the
message contains "limit" case-insensitively — since the not-found message
embeds the domain name, a not-found domain whose name contains "limit" is
reported as rate-limited; for messages without "limit" the outcome stays a
plain wrapped failure that the controller does not treat as a rate limit. -/
theorem c4_whois_error_classification_amended (netW : String → WhoisNetOutcome)
    (usO : String → Except String String) (d : String) (w : WhoisRec) :
    (netW d = .ok none →
      (query_whois netW usO d).1 =
        .error (wrapWhoisError d ("WHOIS: Domain " ++ d ++ " not found."))) ∧
    (netW d = .ok (some w) → whoisTextNoMatch w = true →
      (query_whois netW usO d).1 =
        .error (wrapWhoisError d ("WHOIS: Domain " ++ d ++ " not found."))) ∧
    (netW d = .ok (some w) → whoisTextNoMatch w = false →
      registrarTruthy w = false → textTruthy w = false →
      (query_whois netW usO d).1 =
        .error (wrapWhoisError d
          ("WHOIS: Domain " ++ d ++ " not found or lookup failed (no registrar)."))) ∧
    (∀ e, strContains "limit" (lowerStr e) = true →
      wrapWhoisError d e = "WHOIS: Rate limit reached for " ++ d ++ ".") ∧
    (∀ e, strContains "limit" (lowerStr e) = false →
      wrapWhoisError d e = "WHOIS lookup for " ++ d ++ " failed: " ++ e) ∧
    ((query_whois whoisNone usNone "a.com").1 =
      .error "WHOIS lookup for a.com failed: WHOIS: Domain a.com not found." ∧
     strContains "Rate limit reached"
       "WHOIS lookup for a.com failed: WHOIS: Domain a.com not found." = false) := by
  refine ⟨?_, ?_, ?_, ?_, ?_, rfl, rfl⟩
  · intro h
    simp [query_whois, whois_try, h]
  · intro h hnm
    simp [query_whois, whois_try, h, hnm]
  · intro h hnm hreg htext
    simp [query_whois, whois_try, h, hnm, hreg, htext]
  · intro e he
    simp [wrapWhoisError, he]
  · intro e he
    simp [wrapWhoisError, he]

/-- C4, witness: the not-found raise and its wrapping at a concrete domain
whose name does not contain "limit". -/
theorem c4_whois_error_classification_amended_witness :
    (query_whois whoisNone usNone "b.com").1 =
      .error (wrapWhoisError "b.com" ("WHOIS: Domain " ++ "b.com" ++ " not found.")) :=
  (c4_whois_error_classification_amended whoisNone usNone "b.com" whoisOkRec).1 rfl

/-- C5, witness: the amended invariants evaluated at a concrete payload. -/
theorem c5_status_invariants_amended_witness :
    (rdapStatusStrings "a.com" [("status", .str "ok")]).Nodup ∧
    "" ∉ rdapStatusStrings "a.com" [("status", .str "ok")] :=
  c5_status_invariants_amended.1 "a.com" [("status", .str "ok")]
